import Mathlib

/-!
Verification model of the jolo devcontainer / git-worktree launcher.

Each definition is a shallow embedding of a function from the Python
source (src/_jolo/cli.py, constants.py, container.py, worktree.py,
commands.py).  External effects are made explicit:

* randomness (random.randint, random.choice) is an oracle value or an
  oracle stream passed as an argument;
* the container runtime table, the filesystem and the git worktree
  registry are explicit inputs (a list of records, a predicate on paths);
* subprocess exit codes are Boolean-valued parameters;
* filesystem paths (Python pathlib.Path values) are modelled by their
  component lists, so Path.name is the last component and Path.parent
  drops it.
-/

namespace Jolo

/-! ### Port allocator: src/_jolo/constants.py and src/_jolo/cli.py -/

def PORT_MIN : Nat := 4000

def PORT_MAX : Nat := 5000

/-- Python random.randint a b: a uniform draw from the closed interval
from a to b, both endpoints included.  The draw is determined by the
oracle value r. -/
def randint (a b r : Nat) : Nat := a + r % (b - a + 1)

/-- Function random_port of cli.py: random.randint(PORT_MIN, PORT_MAX). -/
def random_port (r : Nat) : Nat := randint PORT_MIN PORT_MAX r

/-! ### Decimal printing facts

Python str(n) on a nonnegative int is modelled by Nat.repr.  The proofs
below recover n from its decimal representation, giving injectivity of
Nat.repr, which the port-rewrite theorems need. -/

/-- Numeric value of a decimal digit character. -/
def decDigit (c : Char) : Nat := c.toNat - 48

/-- Decimal value of a big-endian digit character list. -/
def decValue (l : List Char) : Nat := l.foldl (fun a c => 10 * a + decDigit c) 0

theorem decValue_foldl_shift (l : List Char) :
    ∀ a : Nat, l.foldl (fun a c => 10 * a + decDigit c) a
      = a * 10 ^ l.length + decValue l := by
  induction l with
  | nil => intro a; simp [decValue]
  | cons c t ih =>
      intro a
      show t.foldl (fun a c => 10 * a + decDigit c) (10 * a + decDigit c)
        = a * 10 ^ (c :: t).length + decValue (c :: t)
      rw [ih (10 * a + decDigit c)]
      have hv : decValue (c :: t)
          = decDigit c * 10 ^ t.length + decValue t := by
        show t.foldl (fun a c => 10 * a + decDigit c) (10 * 0 + decDigit c)
          = decDigit c * 10 ^ t.length + decValue t
        rw [ih (10 * 0 + decDigit c)]
        ring
      rw [hv, List.length_cons]
      ring

theorem decDigit_digitChar : ∀ d : Nat, d < 10 → decDigit (Nat.digitChar d) = d := by
  decide

theorem decValue_toDigitsCore :
    ∀ (f n : Nat) (acc : List Char), n < f →
      decValue (Nat.toDigitsCore 10 f n acc) = n * 10 ^ acc.length + decValue acc := by
  intro f
  induction f with
  | zero => intro n acc h; omega
  | succ f ih =>
      intro n acc h
      show decValue
          (if n / 10 = 0 then Nat.digitChar (n % 10) :: acc
           else Nat.toDigitsCore 10 f (n / 10) (Nat.digitChar (n % 10) :: acc))
        = n * 10 ^ acc.length + decValue acc
      by_cases h0 : n / 10 = 0
      · have hn10 : n < 10 := by omega
        have hmod : n % 10 = n := Nat.mod_eq_of_lt hn10
        rw [if_pos h0]
        have : decValue (Nat.digitChar (n % 10) :: acc)
            = decDigit (Nat.digitChar (n % 10)) * 10 ^ acc.length + decValue acc := by
          show acc.foldl (fun a c => 10 * a + decDigit c)
              (10 * 0 + decDigit (Nat.digitChar (n % 10)))
            = decDigit (Nat.digitChar (n % 10)) * 10 ^ acc.length + decValue acc
          rw [decValue_foldl_shift]
          ring
        rw [this, decDigit_digitChar _ (Nat.mod_lt _ (by omega)), hmod]
      · rw [if_neg h0]
        have hpos : 0 < n := by
          rcases Nat.eq_zero_or_pos n with h' | h'
          · exfalso; apply h0; rw [h']
          · exact h'
        have hlt : n / 10 < f := by
          have := Nat.div_lt_self hpos (by omega : 1 < 10)
          omega
        rw [ih (n / 10) (Nat.digitChar (n % 10) :: acc) hlt]
        have : decValue (Nat.digitChar (n % 10) :: acc)
            = (n % 10) * 10 ^ acc.length + decValue acc := by
          show acc.foldl (fun a c => 10 * a + decDigit c)
              (10 * 0 + decDigit (Nat.digitChar (n % 10)))
            = (n % 10) * 10 ^ acc.length + decValue acc
          rw [decValue_foldl_shift, decDigit_digitChar _ (Nat.mod_lt _ (by omega))]
          ring
        rw [this, List.length_cons]
        have hdm : n = 10 * (n / 10) + n % 10 := (Nat.div_add_mod n 10).symm
        calc n / 10 * 10 ^ (acc.length + 1)
              + ((n % 10) * 10 ^ acc.length + decValue acc)
            = (10 * (n / 10) + n % 10) * 10 ^ acc.length + decValue acc := by ring
          _ = n * 10 ^ acc.length + decValue acc := by rw [← hdm]

theorem decValue_repr (n : Nat) : decValue (Nat.repr n).data = n := by
  show decValue (Nat.toDigitsCore 10 (n + 1) n []) = n
  rw [decValue_toDigitsCore (n + 1) n [] (Nat.lt_succ_self n)]
  simp [decValue]

theorem natRepr_inj {m n : Nat} (h : Nat.repr m = Nat.repr n) : m = n := by
  have := congrArg (fun s => decValue s.data) h
  simpa [decValue_repr] using this

theorem natRepr_ne_empty (n : Nat) : Nat.repr n ≠ "" := by
  intro h
  have hd := decValue_repr n
  rw [h] at hd
  have : n = 0 := by simpa [decValue] using hd.symm
  rw [this] at h
  exact absurd h (by decide)

/-! ### Python substring test

Python writes `needle in hay` for the substring test used by the
port-argument rewrite in reassign_port. -/

/-- Substring test on character lists: true iff needle occurs contiguously. -/
def containsSub (needle : List Char) : List Char → Bool
  | [] => needle.isEmpty
  | c :: rest => needle.isPrefixOf (c :: rest) || containsSub needle rest

/-- Python `needle in hay` on strings. -/
def strContains (hay needle : String) : Bool := containsSub needle.data hay.data

theorem isPrefixOf_append (l t : List Char) : l.isPrefixOf (l ++ t) = true := by
  induction l with
  | nil => cases t <;> rfl
  | cons a as ih => simp [List.isPrefixOf, ih]

theorem containsSub_append_right (l t : List Char) : containsSub l (l ++ t) = true := by
  cases l with
  | nil =>
      cases t with
      | nil => rfl
      | cons c r => simp [containsSub, List.isPrefixOf]
  | cons a as =>
      show (containsSub (a :: as) ((a :: as) ++ t)) = true
      rw [List.cons_append]
      show ((a :: as).isPrefixOf (a :: (as ++ t)) || containsSub (a :: as) (as ++ t)) = true
      rw [show a :: (as ++ t) = (a :: as) ++ t from rfl, isPrefixOf_append]
      rfl

theorem strContains_append_right (s t : String) : strContains (s ++ t) s = true := by
  show containsSub s.data (s ++ t).data = true
  rw [String.data_append]
  exact containsSub_append_right s.data t.data

/-- Python str.strip: drop ASCII whitespace from both ends. -/
def strStrip (s : String) : String :=
  ⟨((s.data.dropWhile (fun c => c.isWhitespace)).reverse.dropWhile
      (fun c => c.isWhitespace)).reverse⟩

/-- Python str.lower on the ASCII answers compared here. -/
def strLower (s : String) : String := ⟨s.data.map Char.toLower⟩

/-! ### Devcontainer sandbox config: src/_jolo/container.py

The devcontainer.json document is modelled by the two fields this core
mutates; the remainder of the JSON document is opaque and preserved
unchanged by every rewrite, so it does not appear in the model. -/

structure DevConfig where
  containerEnvPORT : Option String
  runArgs : List String
deriving DecidableEq

/-- Value published with the -p flag for port q: the string q:q. -/
def portArg (q : Nat) : String := Nat.repr q ++ ":" ++ Nat.repr q

theorem portArg_data (q : Nat) :
    (portArg q).data = (Nat.repr q).data ++ ':' :: (Nat.repr q).data := by
  show ((Nat.repr q ++ ":") ++ Nat.repr q).data = _
  rw [String.data_append, String.data_append]
  simp

theorem portArg_ne_dashp (q : Nat) : portArg q ≠ "-p" := by
  intro h
  have hd := congrArg String.data h
  rw [portArg_data] at hd
  have hmem : ':' ∈ ("-p").data := by
    rw [← hd]; simp
  exact absurd hmem (by decide)

theorem portArg_inj {m n : Nat} (h : portArg m = portArg n) : m = n := by
  apply natRepr_inj
  have hd := congrArg String.data h
  rw [portArg_data, portArg_data] at hd
  have hlen : (Nat.repr m).data.length = (Nat.repr n).data.length := by
    have := congrArg List.length hd
    simp only [List.length_append, List.length_cons] at this
    omega
  have := List.append_inj_left hd hlen
  exact String.ext this

/-- Loop of reassign_port over runArgs (container.py:130-134): the first
argument whose predecessor is the -p flag and which contains the old
port as a substring is replaced by the new q:q value, and the scan
stops there.  prev holds the previous element, none at the list head. -/
def patchPortLoop (oldPort newArg : String) : Option String → List String → List String
  | _, [] => []
  | prev, a :: rest =>
      if prev = some "-p" ∧ strContains a oldPort = true then newArg :: rest
      else a :: patchPortLoop oldPort newArg (some a) rest

/-- Update of runArgs in reassign_port.  A falsy old port (absent key or
empty string) makes the Python condition short-circuit, leaving runArgs
unchanged. -/
def updateRunArgs (oldPort : Option String) (newArg : String) (args : List String) : List String :=
  match oldPort with
  | none => args
  | some o => if o = "" then args else patchPortLoop o newArg none args

/-- First draw of the random-port stream that the bind probe accepts,
modelling the draw-until-available loop of reassign_port
(container.py:122-124).  none models exhausting the modelled draws. -/
def firstAvail (avail : Nat → Bool) : List Nat → Option Nat
  | [] => none
  | d :: ds => if avail d then some d else firstAvail avail ds

/-- Function reassign_port of container.py: pick a new available port,
store it in containerEnv.PORT, rewrite the -p argument that matches
the old port, and return the new port with the rewritten config. -/
def reassign_port (avail : Nat → Bool) (draws : List Nat) (c : DevConfig) :
    Option (Nat × DevConfig) :=
  match firstAvail avail draws with
  | none => none
  | some q =>
      some (q,
        { containerEnvPORT := some (Nat.repr q),
          runArgs := updateRunArgs c.containerEnvPORT (portArg q) c.runArgs })

theorem firstAvail_ok {avail : Nat → Bool} {draws : List Nat} {q : Nat}
    (h : firstAvail avail draws = some q) : avail q = true := by
  induction draws with
  | nil => exact absurd h (by simp [firstAvail])
  | cons d ds ih =>
      by_cases hd : avail d = true
      · have : firstAvail avail (d :: ds) = some d := by simp [firstAvail, hd]
        rw [this] at h
        cases h
        exact hd
      · have : firstAvail avail (d :: ds) = firstAvail avail ds := by
          simp [firstAvail, hd]
        rw [this] at h
        exact ih h

theorem patchPortLoop_hit (oldPort newArg e : String) (post : List String)
    (hcont : strContains e oldPort = true) :
    ∀ (pre : List String) (prev : Option String),
      "-p" ∉ pre → prev ≠ some "-p" →
      patchPortLoop oldPort newArg prev (pre ++ "-p" :: e :: post)
        = pre ++ "-p" :: newArg :: post := by
  intro pre
  induction pre with
  | nil =>
      intro prev _ hprev
      show patchPortLoop oldPort newArg prev ("-p" :: e :: post) = "-p" :: newArg :: post
      rw [patchPortLoop, if_neg (by intro hc; exact hprev hc.1)]
      rw [patchPortLoop, if_pos ⟨rfl, hcont⟩]
  | cons a pre ih =>
      intro prev hpre hprev
      have ha : a ≠ "-p" := by
        intro h; exact hpre (by rw [h]; exact List.mem_cons_self _ _)
      have hpre2 : "-p" ∉ pre := fun h => hpre (List.mem_cons_of_mem _ h)
      show patchPortLoop oldPort newArg prev ((a :: pre) ++ "-p" :: e :: post)
        = (a :: pre) ++ "-p" :: newArg :: post
      rw [List.cons_append, patchPortLoop, if_neg (by intro hc; exact hprev hc.1)]
      rw [ih (some a) hpre2 (by simpa using ha), List.cons_append]

theorem portArg_eq_append (n : Nat) :
    portArg n = Nat.repr n ++ (":" ++ Nat.repr n) := by
  apply String.ext
  rw [portArg_data, String.data_append, String.data_append]
  rfl

theorem strContains_portArg (n : Nat) :
    strContains (portArg n) (Nat.repr n) = true := by
  rw [portArg_eq_append]
  exact strContains_append_right _ _

theorem updateRunArgs_hit (oldn q : Nat) (pre post : List String) (hpre : "-p" ∉ pre) :
    updateRunArgs (some (Nat.repr oldn)) (portArg q) (pre ++ "-p" :: portArg oldn :: post)
      = pre ++ "-p" :: portArg q :: post := by
  show (if Nat.repr oldn = "" then pre ++ "-p" :: portArg oldn :: post
        else patchPortLoop (Nat.repr oldn) (portArg q) none
          (pre ++ "-p" :: portArg oldn :: post))
      = pre ++ "-p" :: portArg q :: post
  rw [if_neg (natRepr_ne_empty oldn)]
  exact patchPortLoop_hit (Nat.repr oldn) (portArg q) (portArg oldn) post
    (strContains_portArg oldn) pre none hpre (by simp)

/-- Behaviour of reassign_port on a well-formed config: the one whose
runArgs hold a single -p flag, at a position after which the old q:q
value sits, as every config written by this tool does. -/
theorem reassign_port_spec (avail : Nat → Bool) (draws : List Nat) (oldn : Nat)
    (pre post : List String) (c : DevConfig) (q : Nat) (c2 : DevConfig)
    (hPORT : c.containerEnvPORT = some (Nat.repr oldn))
    (hargs : c.runArgs = pre ++ "-p" :: portArg oldn :: post)
    (hpre : "-p" ∉ pre)
    (hrun : reassign_port avail draws c = some (q, c2)) :
    avail q = true ∧
    c2 = { containerEnvPORT := some (Nat.repr q),
           runArgs := pre ++ "-p" :: portArg q :: post } := by
  unfold reassign_port at hrun
  cases hfa : firstAvail avail draws with
  | none => rw [hfa] at hrun; exact absurd hrun (by simp)
  | some q0 =>
      rw [hfa] at hrun
      simp only [Option.some.injEq, Prod.mk.injEq] at hrun
      obtain ⟨rfl, hc2⟩ := hrun
      refine ⟨firstAvail_ok hfa, ?_⟩
      rw [← hc2, hPORT, hargs, updateRunArgs_hit _ _ _ _ hpre]

/-- C6: round-trip of port reassignment.  After reassign_port returns
port Q with the rewritten config, the config stores PORT = str(Q), its
runArgs contain the entry Q:Q, and the old oldPort:oldPort entry is
gone.  The hypotheses say the config is well formed (one -p flag,
followed by the old port pair, which occurs nowhere else) and that the
old port is indeed occupied, which is the situation in which the
callers invoke reassign_port. -/
theorem reassign_port_roundtrip (avail : Nat → Bool) (draws : List Nat) (oldn : Nat)
    (pre post : List String) (c : DevConfig) (q : Nat) (c2 : DevConfig)
    (hPORT : c.containerEnvPORT = some (Nat.repr oldn))
    (hargs : c.runArgs = pre ++ "-p" :: portArg oldn :: post)
    (hpre : "-p" ∉ pre)
    (hpreOld : portArg oldn ∉ pre)
    (hpostOld : portArg oldn ∉ post)
    (hOld : avail oldn = false)
    (hrun : reassign_port avail draws c = some (q, c2)) :
    c2.containerEnvPORT = some (Nat.repr q) ∧
    portArg q ∈ c2.runArgs ∧
    portArg oldn ∉ c2.runArgs := by
  obtain ⟨hq, hc2⟩ := reassign_port_spec avail draws oldn pre post c q c2
    hPORT hargs hpre hrun
  have hne : oldn ≠ q := by
    intro h; rw [h] at hOld; rw [hOld] at hq; exact absurd hq (by simp)
  refine ⟨by rw [hc2], by rw [hc2]; simp, ?_⟩
  rw [hc2]
  simp only [List.mem_append, List.mem_cons]
  push_neg
  exact ⟨hpreOld, portArg_ne_dashp oldn,
    fun h => hne (portArg_inj h), hpostOld⟩

/-- Closed instance of the C6 round-trip theorem: the canonical config
on port 4500, a bind probe that accepts only 4002, and a draw stream
whose first accepted value is 4002. -/
theorem reassign_port_roundtrip_witness :
    (⟨some (Nat.repr 4002), ["-p", portArg 4002]⟩ : DevConfig).containerEnvPORT
        = some (Nat.repr 4002) ∧
    portArg 4002 ∈ (⟨some (Nat.repr 4002), ["-p", portArg 4002]⟩ : DevConfig).runArgs ∧
    portArg 4500 ∉ (⟨some (Nat.repr 4002), ["-p", portArg 4002]⟩ : DevConfig).runArgs :=
  reassign_port_roundtrip (fun p => p == 4002) [4001, 4002] 4500 [] []
    ⟨some (Nat.repr 4500), ["-p", portArg 4500]⟩ 4002
    ⟨some (Nat.repr 4002), ["-p", portArg 4002]⟩
    rfl rfl (by simp) (by simp) (by simp) (by decide) (by decide)

/-! ### Spawn per-workspace port write: src/_jolo/commands.py 1077-1082 -/

/-- Port write performed by run_spawn_mode for one worktree when not
syncing: containerEnv.PORT is set to str(port); nothing else in the
config, in particular runArgs, is touched. -/
def spawn_update_port (c : DevConfig) (port : Nat) : DevConfig :=
  { c with containerEnvPORT := some (Nat.repr port) }

/-- Port value published in runArgs: the entry right after the first -p flag. -/
def publishedPortArg : List String → Option String
  | [] => none
  | a :: rest => if a = "-p" then rest.head? else publishedPortArg rest

/-- Consistency invariant stated by the spec: the stored PORT string s
is mirrored by the published s:s pair in runArgs. -/
def portConsistent (c : DevConfig) : Bool :=
  match c.containerEnvPORT with
  | none => true
  | some s => publishedPortArg c.runArgs == some (s ++ ":" ++ s)

theorem publishedPortArg_hit (v : String) (post : List String) :
    ∀ pre : List String, "-p" ∉ pre →
      publishedPortArg (pre ++ "-p" :: v :: post) = some v := by
  intro pre
  induction pre with
  | nil =>
      intro _
      show publishedPortArg ("-p" :: v :: post) = some v
      rw [publishedPortArg, if_pos rfl]
      rfl
  | cons a pre ih =>
      intro hpre
      have ha : a ≠ "-p" := by
        intro h; exact hpre (by rw [h]; exact List.mem_cons_self _ _)
      show publishedPortArg (a :: (pre ++ "-p" :: v :: post)) = some v
      rw [publishedPortArg, if_neg ha]
      exact ih (fun h => hpre (List.mem_cons_of_mem _ h))

/-- C5 counterexample: the spawn-mode port write applied to a config
that is consistent on port 4500 stores PORT = "4000" and leaves the
published -p pair at 4500:4500, so the stored port no longer equals
the published port. -/
theorem spawn_update_port_breaks_consistency :
    portConsistent ⟨some "4500", ["-p", "4500:4500"]⟩ = true ∧
    spawn_update_port ⟨some "4500", ["-p", "4500:4500"]⟩ 4000
      = ⟨some "4000", ["-p", "4500:4500"]⟩ ∧
    portConsistent (spawn_update_port ⟨some "4500", ["-p", "4500:4500"]⟩ 4000) = false := by
  refine ⟨by decide, ?_, by decide⟩
  show (⟨some (Nat.repr 4000), ["-p", "4500:4500"]⟩ : DevConfig) = _
  decide

/-- C5 amended: port reassignment rewrites the stored PORT and the
published -p pair together, so reassign_port preserves the consistency
invariant on well-formed configs; the spawn-mode per-workspace port
write, in contrast, sets only containerEnv.PORT and leaves runArgs
unchanged. -/
theorem port_write_consistency_amended (avail : Nat → Bool) (draws : List Nat)
    (oldn : Nat) (pre post : List String) (c : DevConfig) (q : Nat) (c2 : DevConfig)
    (hPORT : c.containerEnvPORT = some (Nat.repr oldn))
    (hargs : c.runArgs = pre ++ "-p" :: portArg oldn :: post)
    (hpre : "-p" ∉ pre)
    (hrun : reassign_port avail draws c = some (q, c2)) :
    portConsistent c2 = true ∧
    ∀ (d : DevConfig) (r : Nat),
      (spawn_update_port d r).runArgs = d.runArgs ∧
      (spawn_update_port d r).containerEnvPORT = some (Nat.repr r) := by
  obtain ⟨_, hc2⟩ := reassign_port_spec avail draws oldn pre post c q c2
    hPORT hargs hpre hrun
  constructor
  · rw [hc2]
    show (publishedPortArg (pre ++ "-p" :: portArg q :: post)
        == some (Nat.repr q ++ ":" ++ Nat.repr q)) = true
    rw [publishedPortArg_hit (portArg q) post pre hpre]
    exact beq_self_eq_true _
  · intro d r
    exact ⟨rfl, rfl⟩

/-- Closed instance of the amended C5 theorem at the same canonical
config used for the C6 witness. -/
theorem port_write_consistency_amended_witness :
    portConsistent ⟨some (Nat.repr 4002), ["-p", portArg 4002]⟩ = true ∧
    (spawn_update_port ⟨some "4500", ["-p", "4500:4500"]⟩ 4000).runArgs
        = ["-p", "4500:4500"] ∧
    (spawn_update_port ⟨some "4500", ["-p", "4500:4500"]⟩ 4000).containerEnvPORT
        = some (Nat.repr 4000) := by
  have h := port_write_consistency_amended (fun p => p == 4002) [4001, 4002] 4500 [] []
    ⟨some (Nat.repr 4500), ["-p", portArg 4500]⟩ 4002
    ⟨some (Nat.repr 4002), ["-p", portArg 4002]⟩
    rfl rfl (by simp) (by decide)
  exact ⟨h.1, (h.2 ⟨some "4500", ["-p", "4500:4500"]⟩ 4000).1,
    (h.2 ⟨some "4500", ["-p", "4500:4500"]⟩ 4000).2⟩

/-! ### C7: range of random_port -/

/-- C7 counterexample: random.randint includes both endpoints, so the
draw oracle value 1000 makes random_port return PORT_MAX = 5000 itself,
refuting the half-open range claim. -/
theorem random_port_hits_PORT_MAX :
    random_port 1000 = PORT_MAX ∧ ¬ random_port 1000 < PORT_MAX := by
  decide

/-- C7 amended: every value random_port can return lies in the closed
range from PORT_MIN to PORT_MAX, both endpoints included. -/
theorem random_port_range (r : Nat) :
    PORT_MIN ≤ random_port r ∧ random_port r ≤ PORT_MAX := by
  unfold random_port randint PORT_MIN PORT_MAX
  have h : r % (5000 - 4000 + 1) < 1001 := Nat.mod_lt _ (by omega)
  omega

/-! ### Paths and the container registry: src/_jolo/container.py

A pathlib.Path value is modelled by its list of components; the last
component is Path.name and dropping it gives Path.parent. -/

abbrev JPath := List String

/-- Python Path.name: the final path component, empty for the root. -/
def pathName (p : JPath) : String := p.getLastD ""

/-- Python Path.parent: the path without its final component. -/
def parentPath (p : JPath) : JPath := p.dropLast

/-- Row of the runtime ps output: container name, the workspace-folder
label, the state string and the image ID. -/
structure ContainerRec where
  name : String
  folder : JPath
  state : String
  imageId : String
deriving DecidableEq

/-- Function find_containers_for_project of container.py: keep the rows
of the global listing whose folder is the git root itself, or whose
parent directory is named <root name>-worktrees, optionally restricted
to one state. -/
def find_containers_for_project (git_root : JPath) (state_filter : Option String)
    (all_containers : List ContainerRec) : List ContainerRec :=
  all_containers.foldr
    (fun c matched =>
      if c.folder = git_root ∨
          pathName (parentPath c.folder) = pathName git_root ++ "-worktrees" then
        if state_filter = none ∨ state_filter = some c.state then c :: matched
        else matched
      else matched)
    []

/-- C8: membership in find_containers_for_project is exactly membership
in the global listing plus the path-convention match (folder equals the
git root, or the parent directory of the folder is named
<root name>-worktrees), subject to the optional state filter; every
container at any other path is excluded. -/
theorem find_containers_for_project_mem (git_root : JPath) (state_filter : Option String)
    (all_containers : List ContainerRec) (c : ContainerRec) :
    c ∈ find_containers_for_project git_root state_filter all_containers ↔
      c ∈ all_containers ∧
      (c.folder = git_root ∨
        pathName (parentPath c.folder) = pathName git_root ++ "-worktrees") ∧
      (state_filter = none ∨ state_filter = some c.state) := by
  induction all_containers with
  | nil => simp [find_containers_for_project]
  | cons d rest ih =>
      have hcons : find_containers_for_project git_root state_filter (d :: rest)
          = if d.folder = git_root ∨
              pathName (parentPath d.folder) = pathName git_root ++ "-worktrees" then
              if state_filter = none ∨ state_filter = some d.state then
                d :: find_containers_for_project git_root state_filter rest
              else find_containers_for_project git_root state_filter rest
            else find_containers_for_project git_root state_filter rest := rfl
      rw [hcons]
      by_cases h1 : d.folder = git_root ∨
          pathName (parentPath d.folder) = pathName git_root ++ "-worktrees"
      · by_cases h2 : state_filter = none ∨ state_filter = some d.state
        · rw [if_pos h1, if_pos h2]
          constructor
          · intro hm
            rcases List.mem_cons.mp hm with h | h
            · subst h; exact ⟨List.mem_cons_self _ _, h1, h2⟩
            · obtain ⟨ha, hb, hc⟩ := ih.mp h
              exact ⟨List.mem_cons_of_mem _ ha, hb, hc⟩
          · rintro ⟨ha, hb, hc⟩
            rcases List.mem_cons.mp ha with h | h
            · subst h; exact List.mem_cons_self _ _
            · exact List.mem_cons_of_mem _ (ih.mpr ⟨h, hb, hc⟩)
        · rw [if_pos h1, if_neg h2, ih]
          constructor
          · rintro ⟨ha, hb, hc⟩
            exact ⟨List.mem_cons_of_mem _ ha, hb, hc⟩
          · rintro ⟨ha, hb, hc⟩
            rcases List.mem_cons.mp ha with h | h
            · subst h; exact absurd hc h2
            · exact ⟨h, hb, hc⟩
      · rw [if_neg h1, ih]
        constructor
        · rintro ⟨ha, hb, hc⟩
          exact ⟨List.mem_cons_of_mem _ ha, hb, hc⟩
        · rintro ⟨ha, hb, hc⟩
          rcases List.mem_cons.mp ha with h | h
          · subst h; exact absurd hb h1
          · exact ⟨h, hb, hc⟩

/-! ### Worktree registry: src/_jolo/worktree.py -/

/-- Parsed record of git worktree list --porcelain: path, short HEAD
commit and branch name. -/
structure WorktreeRec where
  path : JPath
  head : String
  branch : String
deriving DecidableEq

/-- Function find_stale_worktrees of worktree.py: walk the worktree
records, always skip the record for the git root itself, and keep the
(path, branch) pairs whose directory no longer exists on disk.  The
filesystem is the predicate onDisk. -/
def find_stale_worktrees (onDisk : JPath → Bool) (git_root : JPath)
    (worktrees : List WorktreeRec) : List (JPath × String) :=
  worktrees.foldr
    (fun w stale =>
      if w.path = git_root then stale
      else if onDisk w.path then stale
      else (w.path, w.branch) :: stale)
    []

/-- C10: every pair returned by find_stale_worktrees has a path that
differs from the git root and does not exist on disk; in particular the
record for the main checkout is always skipped, even when its directory
is missing, so the main repository never appears in the stale set. -/
theorem find_stale_worktrees_sound (onDisk : JPath → Bool) (git_root : JPath)
    (worktrees : List WorktreeRec) (p : JPath) (b : String)
    (hmem : (p, b) ∈ find_stale_worktrees onDisk git_root worktrees) :
    p ≠ git_root ∧ onDisk p = false := by
  induction worktrees with
  | nil => exact absurd hmem (by simp [find_stale_worktrees])
  | cons w rest ih =>
      by_cases h1 : w.path = git_root
      · refine ih ?_
        simpa [find_stale_worktrees, h1] using hmem
      · by_cases h2 : onDisk w.path = true
        · refine ih ?_
          simpa [find_stale_worktrees, h1, h2] using hmem
        · have hmem2 : (p, b) ∈ (w.path, w.branch) ::
              find_stale_worktrees onDisk git_root rest := by
            simpa [find_stale_worktrees, h1, h2] using hmem
          rcases List.mem_cons.mp hmem2 with h | h
          · have hp : p = w.path := congrArg Prod.fst h
            subst hp
            exact ⟨h1, by simpa using h2⟩
          · exact ih h

/-- Closed instance of the C10 theorem: a registry holding the main
checkout and one worktree whose directory is gone. -/
theorem find_stale_worktrees_sound_witness :
    (["home", "app-worktrees", "feat"] : JPath) ≠ ["home", "app"] ∧
    (fun p : JPath => p == ["home", "app"]) ["home", "app-worktrees", "feat"] = false :=
  find_stale_worktrees_sound (fun p => p == ["home", "app"]) ["home", "app"]
    [⟨["home", "app"], "abc1234", "main"⟩,
     ⟨["home", "app-worktrees", "feat"], "def5678", "feat"⟩]
    ["home", "app-worktrees", "feat"] "feat" (by decide)

/-! ### Start of one sandbox: src/_jolo/commands.py 601-607

The container-start section of run_up_mode.  The Boolean state says
whether a container for the workspace is running; a devcontainer up
call that reports success leaves the container running. -/

structure UpOutcome where
  calledUp : Bool
  errored : Bool
  printedReattach : Bool
deriving DecidableEq

/-- Start section of run_up_mode: query is_container_running; when
forceNew is set or nothing is running, issue devcontainer up and exit
with an error if it fails; otherwise print the already-running,
reattaching report and do nothing.  Returns the outcome together with
the new running state. -/
def run_up_start (forceNew running upOk : Bool) : UpOutcome × Bool :=
  if forceNew || !running then
    if upOk then (⟨true, false, false⟩, true)
    else (⟨true, true, false⟩, running)
  else (⟨false, false, true⟩, running)

/-- C1: idempotence of up.  If a first invocation without forceNew does
not error, the container is running afterwards, and a second invocation
without forceNew observes it running, prints the already-running
reattach report, issues no second up-command, does not error, and
leaves the running state unchanged, so no second container is ever
created. -/
theorem run_up_start_idempotent (running0 upOk1 upOk2 : Bool)
    (hok : (run_up_start false running0 upOk1).1.errored = false) :
    (run_up_start false running0 upOk1).2 = true ∧
    (run_up_start false (run_up_start false running0 upOk1).2 upOk2).1.calledUp = false ∧
    (run_up_start false (run_up_start false running0 upOk1).2 upOk2).1.errored = false ∧
    (run_up_start false (run_up_start false running0 upOk1).2 upOk2).1.printedReattach
        = true ∧
    (run_up_start false (run_up_start false running0 upOk1).2 upOk2).2
        = (run_up_start false running0 upOk1).2 := by
  cases running0 <;> cases upOk1 <;> cases upOk2 <;>
    simp_all [run_up_start]

/-- Closed instance of the C1 theorem: the workspace starts with no
running container and the first up-command succeeds. -/
theorem run_up_start_idempotent_witness :
    (run_up_start false false true).1.errored = false ∧
    ((run_up_start false false true).2 = true ∧
      (run_up_start false (run_up_start false false true).2 true).1.calledUp = false ∧
      (run_up_start false (run_up_start false false true).2 true).1.errored = false ∧
      (run_up_start false (run_up_start false false true).2 true).1.printedReattach
          = true ∧
      (run_up_start false (run_up_start false false true).2 true).2
          = (run_up_start false false true).2) :=
  ⟨by decide, run_up_start_idempotent false true true (by decide)⟩

/-! ### Pre-start port check: devcontainer_up in src/_jolo/container.py -/

/-- Environment of one devcontainer_up call: the workspace config (none
when no devcontainer.json exists), the bind probe, whether the existing
container is being replaced, whether a container for this workspace is
running, whether stdin is a tty, the interactive answer (none models
KeyboardInterrupt or EOFError), and the exit status of the up command. -/
structure UpCall where
  cfg : Option DevConfig
  avail : Nat → Bool
  removeExisting : Bool
  running : Bool
  isatty : Bool
  answer : Option String
  upOk : Bool

/-- Decimal parse of a string, modelling Python int() on the port
strings this tool writes: some value for a nonempty all-digit string,
none otherwise (int raises ValueError there, which the caller turns
into None). -/
def parsePort (s : String) : Option Nat :=
  if s.data ≠ [] ∧ s.data.all (fun c => c.isDigit) then
    some (s.data.foldl (fun n c => n * 10 + (c.toNat - 48)) 0)
  else none

/-- Function read_port_from_devcontainer of cli.py: the PORT entry of
containerEnv parsed as an int, none when the file or the entry is
missing, empty, or unparsable. -/
def read_port_from_devcontainer (cfg : Option DevConfig) : Option Nat :=
  match cfg with
  | none => none
  | some c =>
      match c.containerEnvPORT with
      | none => none
      | some s => parsePort s

/-- Result of devcontainer_up: the returned Boolean, whether the
up-command was launched, whether reassign_port was consulted, and
whether the port-in-use error was printed. -/
structure UpRes where
  ok : Bool
  launched : Bool
  reassigned : Bool
  errorPrinted : Bool
deriving DecidableEq

/-- Pre-start port check and launch of devcontainer_up
(container.py:140-174).  When the configured port is occupied: proceed
if our own prior container is about to be replaced; otherwise, on a
tty, ask and either reassign or fail with the port-in-use error; with
no tty, print the port-in-use error and fail without launching. -/
def devcontainer_up (call : UpCall) : UpRes :=
  match read_port_from_devcontainer call.cfg with
  | some p =>
      if call.avail p = false then
        if call.removeExisting ∧ call.running then ⟨call.upOk, true, false, false⟩
        else if call.isatty then
          match call.answer with
          | none => ⟨false, false, false, false⟩
          | some a =>
              if strLower (strStrip a) ∈ (["", "y", "yes"] : List String) then
                ⟨call.upOk, true, true, false⟩
              else ⟨false, false, false, true⟩
        else ⟨false, false, false, true⟩
      else ⟨call.upOk, true, false, false⟩
  | none => ⟨call.upOk, true, false, false⟩

/-- C9: non-interactive port conflict fails closed.  When the
configured port is occupied, the occupier is not the prior container of this same workspace about to be replaced, and stdin is not a tty, the call
prints the explicit port-in-use error and reports failure without
launching the container and without reassigning; and in every run a
port reassignment only ever happens on a tty after an affirmative
answer to the consent prompt. -/
theorem devcontainer_up_noninteractive_fails_closed (call : UpCall) (p : Nat)
    (hport : read_port_from_devcontainer call.cfg = some p)
    (hbusy : call.avail p = false)
    (hnotown : ¬(call.removeExisting ∧ call.running))
    (htty : call.isatty = false) :
    devcontainer_up call = ⟨false, false, false, true⟩ ∧
    ∀ c2 : UpCall, (devcontainer_up c2).reassigned = true →
      c2.isatty = true ∧
      ∃ a, c2.answer = some a ∧ strLower (strStrip a) ∈ (["", "y", "yes"] : List String) := by
  constructor
  · simp only [devcontainer_up, hport]
    rw [if_pos hbusy, if_neg hnotown, htty]
    simp
  · intro c2 hre
    cases hp2 : read_port_from_devcontainer c2.cfg with
    | none =>
        simp only [devcontainer_up, hp2] at hre
        exact absurd hre (by simp)
    | some p2 =>
        simp only [devcontainer_up, hp2] at hre
        by_cases hb2 : c2.avail p2 = false
        · rw [if_pos hb2] at hre
          by_cases hown : c2.removeExisting = true ∧ c2.running = true
          · rw [if_pos hown] at hre; exact absurd hre (by simp)
          · rw [if_neg hown] at hre
            by_cases ht2 : c2.isatty = true
            · rw [if_pos ht2] at hre
              cases ha : c2.answer with
              | none =>
                  simp only [ha] at hre
                  exact absurd hre (by simp)
              | some a =>
                  simp only [ha] at hre
                  by_cases hy : strLower (strStrip a) ∈ (["", "y", "yes"] : List String)
                  · exact ⟨ht2, a, rfl, hy⟩
                  · rw [if_neg hy] at hre; exact absurd hre (by simp)
            · rw [if_neg ht2] at hre; exact absurd hre (by simp)
        · rw [if_neg hb2] at hre; exact absurd hre (by simp)

/-- Closed instance of the C9 theorem: port 4500 configured and
occupied, no prior container being replaced, stdin not a tty. -/
theorem devcontainer_up_noninteractive_witness :
    devcontainer_up
        ⟨some ⟨some "4500", ["-p", "4500:4500"]⟩, fun _ => false,
          false, false, false, none, true⟩
      = ⟨false, false, false, true⟩ :=
  (devcontainer_up_noninteractive_fails_closed
      ⟨some ⟨some "4500", ["-p", "4500:4500"]⟩, fun _ => false,
        false, false, false, none, true⟩ 4500
      (by decide) rfl (by simp) rfl).1

/-! ### Spawn name and port generation: src/_jolo/commands.py 1030-1082

The random adjective-noun generator is an oracle stream draws, indexed
by how many random names have been generated so far. -/

/-- One generated workspace name: the full numbered name, its suffix
(the prefix argument or the random part), and whether the numeric
spawn-<idx> fallback was taken. -/
structure SpawnName where
  name : String
  suffix : String
  fallback : Bool
deriving DecidableEq

/-- Retry loop of run_spawn_mode (commands.py:1039-1042): draw up to
fuel (in the source, 100) random names, returning the first one not
already used together with the next stream position; none when every
draw collided, which triggers the numeric fallback. -/
def tryDraws (used : List String) (draws : Nat → String) : Nat → Nat → Option (String × Nat)
  | _, 0 => none
  | pos, fuel + 1 =>
      if draws pos ∈ used then tryDraws used draws (pos + 1) fuel
      else some (draws pos, pos + 1)

/-- Name-generation loop of run_spawn_mode (commands.py:1031-1047).
With a prefix, the name for the 1-based index idx is idx-prefix and the
used set is never consulted.  Without a prefix, draw a fresh random
part (falling back to spawn-idx after 100 collisions), record it as
used, and emit idx-part. -/
def spawnNamesGo (pfx : Option String) (draws : Nat → String) :
    Nat → Nat → List String → Nat → List SpawnName
  | 0, _, _, _ => []
  | k + 1, i, used, pos =>
      match pfx with
      | some p =>
          ⟨Nat.repr (i + 1) ++ "-" ++ p, p, false⟩ ::
            spawnNamesGo (some p) draws k (i + 1) used pos
      | none =>
          match tryDraws used draws pos 100 with
          | some (part, pos2) =>
              ⟨Nat.repr (i + 1) ++ "-" ++ part, part, false⟩ ::
                spawnNamesGo none draws k (i + 1) (part :: used) pos2
          | none =>
              ⟨Nat.repr (i + 1) ++ "-" ++ ("spawn-" ++ Nat.repr (i + 1)),
                  "spawn-" ++ Nat.repr (i + 1), true⟩ ::
                spawnNamesGo none draws k (i + 1)
                  (("spawn-" ++ Nat.repr (i + 1)) :: used) (pos + 100)

/-- Worktree names generated by run_spawn_mode for a count of n. -/
def run_spawn_names (n : Nat) (pfx : Option String) (draws : Nat → String) :
    List SpawnName :=
  spawnNamesGo pfx draws n 0 [] 0

/-- Port assigned by run_spawn_mode to the workspace at 0-based index i
(commands.py:1055): base_port + i. -/
def spawnPort (basePort i : Nat) : Nat := basePort + i

theorem tryDraws_not_used {used : List String} {draws : Nat → String}
    {part : String} {pos2 : Nat} :
    ∀ {pos fuel : Nat}, tryDraws used draws pos fuel = some (part, pos2) →
      part ∉ used := by
  intro pos fuel
  induction fuel generalizing pos with
  | zero => intro h; exact absurd h (by simp [tryDraws])
  | succ f ih =>
      intro h
      by_cases hmem : draws pos ∈ used
      · rw [tryDraws, if_pos hmem] at h
        exact ih h
      · rw [tryDraws, if_neg hmem] at h
        obtain ⟨h1, _⟩ := Prod.mk.injEq .. ▸ Option.some.injEq .. ▸ h
        rw [← h1]
        exact hmem

theorem spawnNamesGo_no_fallback_not_used (draws : Nat → String) :
    ∀ (k i pos : Nat) (used : List String) (e : SpawnName),
      e ∈ spawnNamesGo none draws k i used pos → e.fallback = false →
        e.suffix ∉ used := by
  intro k
  induction k with
  | zero => intro i pos used e he; exact absurd he (by simp [spawnNamesGo])
  | succ k ih =>
      intro i pos used e he hfb
      cases htry : tryDraws used draws pos 100 with
      | some pr =>
          obtain ⟨part, pos2⟩ := pr
          simp only [spawnNamesGo, htry] at he
          rcases List.mem_cons.mp he with h | h
          · rw [h]
            exact tryDraws_not_used htry
          · have := ih (i + 1) pos2 (part :: used) e h hfb
            exact fun hu => this (List.mem_cons_of_mem _ hu)
      | none =>
          simp only [spawnNamesGo, htry] at he
          rcases List.mem_cons.mp he with h | h
          · rw [h] at hfb; exact absurd hfb (by simp)
          · have := ih (i + 1) (pos + 100) _ e h hfb
            exact fun hu => this (List.mem_cons_of_mem _ hu)

theorem spawnNamesGo_pairwise (draws : Nat → String) :
    ∀ (k i pos : Nat) (used : List String),
      List.Pairwise (fun a b => b.fallback = false → a.suffix ≠ b.suffix)
        (spawnNamesGo none draws k i used pos) := by
  intro k
  induction k with
  | zero => intro i pos used; simp [spawnNamesGo]
  | succ k ih =>
      intro i pos used
      cases htry : tryDraws used draws pos 100 with
      | some pr =>
          obtain ⟨part, pos2⟩ := pr
          simp only [spawnNamesGo, htry]
          refine List.Pairwise.cons ?_ (ih (i + 1) pos2 (part :: used))
          intro b hb hfb
          have hnb := spawnNamesGo_no_fallback_not_used draws
            (k) (i + 1) pos2 (part :: used) b hb hfb
          intro hs
          exact hnb (by rw [← hs]; exact List.mem_cons_self _ _)
      | none =>
          simp only [spawnNamesGo, htry]
          refine List.Pairwise.cons ?_ (ih (i + 1) (pos + 100) _)
          intro b hb hfb
          have hnb := spawnNamesGo_no_fallback_not_used draws
            (k) (i + 1) (pos + 100) _ b hb hfb
          intro hs
          exact hnb (by rw [← hs]; exact List.mem_cons_self _ _)

theorem spawnNamesGo_prefixed (p : String) (draws : Nat → String) :
    ∀ (k i pos : Nat) (used : List String),
      spawnNamesGo (some p) draws k i used pos
        = (List.range k).map
            (fun j => ⟨Nat.repr (i + 1 + j) ++ "-" ++ p, p, false⟩) := by
  intro k
  induction k with
  | zero => intro i pos used; simp [spawnNamesGo]
  | succ k ih =>
      intro i pos used
      rw [List.range_succ_eq_map, List.map_cons, List.map_map]
      show (⟨Nat.repr (i + 1) ++ "-" ++ p, p, false⟩ : SpawnName) ::
          spawnNamesGo (some p) draws k (i + 1) used pos = _
      congr 1
      rw [ih (i + 1) pos used]
      apply List.map_congr_left
      intro j _
      show (⟨Nat.repr (i + 1 + 1 + j) ++ "-" ++ p, p, false⟩ : SpawnName) = _
      have harg : i + 1 + 1 + j = i + 1 + (j + 1) := by omega
      rw [harg]
      rfl

/-- C4: spawn name and port uniqueness.  With a prefix p, the generated
names for a count of n are exactly 1-p through n-p in index order; the
ports assigned to distinct 0-based indices are strictly increasing and
therefore pairwise distinct; without a prefix, any two generated
suffixes for which the numeric fallback was not taken are distinct. -/
theorem spawn_names_and_ports (n : Nat) (p : String) (draws : Nat → String)
    (basePort : Nat) :
    (run_spawn_names n (some p) draws).map (fun e => e.name)
        = (List.range n).map (fun i => Nat.repr (i + 1) ++ "-" ++ p) ∧
    (∀ i j : Nat, i < j →
        spawnPort basePort i < spawnPort basePort j ∧
        spawnPort basePort i ≠ spawnPort basePort j) ∧
    List.Pairwise
        (fun a b => a.fallback = false → b.fallback = false → a.suffix ≠ b.suffix)
        (run_spawn_names n none draws) := by
  refine ⟨?_, ?_, ?_⟩
  · rw [run_spawn_names, spawnNamesGo_prefixed p draws n 0 0 [], List.map_map]
    apply List.map_congr_left
    intro j _
    show Nat.repr (0 + 1 + j) ++ "-" ++ p = Nat.repr (j + 1) ++ "-" ++ p
    have : 0 + 1 + j = j + 1 := by omega
    rw [this]
  · intro i j hij
    refine ⟨by simpa [spawnPort] using hij, ?_⟩
    simp only [spawnPort]
    omega
  · exact (spawnNamesGo_pairwise draws n 0 0 []).imp
      (fun h _ hb => h hb)

/-- Closed instance of the C4 theorem: two worktrees with prefix feat,
and the first two ports from base 4000. -/
theorem spawn_names_and_ports_witness :
    (run_spawn_names 2 (some "feat") (fun _ => "bold-fox")).map (fun e => e.name)
        = ["1-feat", "2-feat"] ∧
    spawnPort 4000 0 < spawnPort 4000 1 := by
  constructor
  · have h := (spawn_names_and_ports 2 "feat" (fun _ => "bold-fox") 4000).1
    exact h.trans (by decide)
  · exact ((spawn_names_and_ports 2 "feat" (fun _ => "bold-fox") 4000).2.1 0 1
      (by decide)).1

/-! ### Reconciliation engine: run_prune_mode in src/_jolo/commands.py

The project-scoped prune path (runtime present, inside a git repo,
without the all flag), lines 307-423.  The container runtime table,
the filesystem, the worktree registry, the confirmation answer and the
exit statuses of the mutating subprocess calls are explicit inputs. -/

/-- Function find_stopped_containers_for_project of container.py:
(name, folder, image) triples of the project containers whose state is
not running. -/
def find_stopped_containers_for_project (git_root : JPath)
    (world : List ContainerRec) : List (String × JPath × String) :=
  (find_containers_for_project git_root none world).foldr
    (fun c acc =>
      if c.state ≠ "running" then (c.name, c.folder, c.imageId) :: acc else acc)
    []

/-- Orphan-container comprehension of run_prune_mode
(commands.py:327-331): project containers that are running but whose
workspace folder no longer exists on disk. -/
def find_orphan_containers (onDisk : JPath → Bool) (git_root : JPath)
    (world : List ContainerRec) : List (String × JPath × String) :=
  (find_containers_for_project git_root none world).foldr
    (fun c acc =>
      if c.state = "running" ∧ onDisk c.folder = false then
        (c.name, c.folder, c.imageId) :: acc
      else acc)
    []

/-- Image IDs collected for possible garbage collection
(commands.py:364-366): the set of nonempty image IDs of the
stopped-union-orphan containers, modelled as a deduplicated list. -/
def collectImages (containers : List (String × JPath × String)) : List String :=
  ((containers.map (fun t => t.2.2)).filter (fun s => s ≠ "")).dedup

/-- Image IDs referenced by any container of a listing
(commands.py:415): the nonempty image IDs of the remaining rows. -/
def imagesInUse (world : List ContainerRec) : List String :=
  (world.map (fun c => c.imageId)).filter (fun s => s ≠ "")

/-- Effect of a successful runtime stop on the container table. -/
def stopInWorld (n : String) (world : List ContainerRec) : List ContainerRec :=
  world.map (fun c => if c.name = n then { c with state := "exited" } else c)

/-- Effect of a successful runtime rm on the container table. -/
def removeFromWorld (n : String) (world : List ContainerRec) : List ContainerRec :=
  world.filter (fun c => c.name ≠ n)

/-- Stop phase of the confirmed prune (commands.py:386-393): each
orphan is stopped in turn; a failing stop leaves the table unchanged. -/
def pruneStopPhase (stopOk : String → Bool) (names : List String)
    (world : List ContainerRec) : List ContainerRec :=
  names.foldl (fun w n => if stopOk n then stopInWorld n w else w) world

/-- Removal phase of the confirmed prune (commands.py:396-400): each
container of the stopped-union-orphan set is removed in turn; a failing
removal leaves the table unchanged. -/
def pruneRemovePhase (rmOk : String → Bool) (names : List String)
    (world : List ContainerRec) : List ContainerRec :=
  names.foldl (fun w n => if rmOk n then removeFromWorld n w else w) world

/-- Inputs of one run of the project prune: the global container table,
the filesystem, the parsed worktree registry, the confirmation answer
(none models EOFError or KeyboardInterrupt), and the exit statuses of
the stop, container-removal, worktree-removal and image-removal
subprocesses. -/
structure PruneInput where
  world : List ContainerRec
  onDisk : JPath → Bool
  worktrees : List WorktreeRec
  response : Option String
  stopOk : String → Bool
  rmOk : String → Bool
  wtRmOk : JPath → Bool
  rmiOk : String → Bool

/-- Observable outcome of one prune run: what was printed, which
mutating calls were issued, the collected and re-queried image data,
the stderr failure reports, and the final container table. -/
structure PruneTrace where
  printedNothing : Bool
  prompted : Bool
  cancelled : Bool
  stopCalls : List String
  rmCalls : List String
  wtRmCalls : List JPath
  collected : List String
  remaining : List ContainerRec
  rmiCalls : List String
  printedImageRemovals : List String
  errors : List String
  world : List ContainerRec

/-- Function run_prune_mode of commands.py, project path: compute the
stopped, orphan and stale sets; when all three are empty print the
nothing-to-prune report and stop; otherwise collect candidate image
IDs, prompt once, and on a y answer stop the orphans, remove the
stopped-union-orphan containers, remove the stale worktrees, re-query
the container table, and issue rmi for every collected image not
referenced by any remaining container, ignoring rmi failures. -/
def run_prune (inp : PruneInput) (git_root : JPath) : PruneTrace :=
  let stopped := find_stopped_containers_for_project git_root inp.world
  let orphans := find_orphan_containers inp.onDisk git_root inp.world
  let stale := find_stale_worktrees inp.onDisk git_root inp.worktrees
  if stopped.isEmpty && orphans.isEmpty && stale.isEmpty then
    { printedNothing := true, prompted := false, cancelled := false,
      stopCalls := [], rmCalls := [], wtRmCalls := [], collected := [],
      remaining := [], rmiCalls := [], printedImageRemovals := [],
      errors := [], world := inp.world }
  else
    let potential := collectImages (stopped ++ orphans)
    match inp.response with
    | none =>
        { printedNothing := false, prompted := true, cancelled := true,
          stopCalls := [], rmCalls := [], wtRmCalls := [], collected := [],
          remaining := [], rmiCalls := [], printedImageRemovals := [],
          errors := [], world := inp.world }
    | some r =>
        if strLower r ≠ "y" then
          { printedNothing := false, prompted := true, cancelled := true,
            stopCalls := [], rmCalls := [], wtRmCalls := [], collected := [],
            remaining := [], rmiCalls := [], printedImageRemovals := [],
            errors := [], world := inp.world }
        else
          let stopCalls := orphans.map (fun t => t.1)
          let world1 := pruneStopPhase inp.stopOk stopCalls inp.world
          let errs1 := (stopCalls.filter (fun n => inp.stopOk n = false)).map
            (fun n => "Failed to stop: " ++ n)
          let rmCalls := (stopped ++ orphans).map (fun t => t.1)
          let world2 := pruneRemovePhase inp.rmOk rmCalls world1
          let errs2 := (rmCalls.filter (fun n => inp.rmOk n = false)).map
            (fun n => "Failed to remove container: " ++ n)
          let wtCalls := stale.map (fun t => t.1)
          let errs3 := (wtCalls.filter (fun p => inp.wtRmOk p = false)).map
            (fun p => "Failed to remove worktree: " ++ pathName p)
          if potential.isEmpty then
            { printedNothing := false, prompted := true, cancelled := false,
              stopCalls := stopCalls, rmCalls := rmCalls, wtRmCalls := wtCalls,
              collected := potential, remaining := world2, rmiCalls := [],
              printedImageRemovals := [],
              errors := errs1 ++ errs2 ++ errs3, world := world2 }
          else
            let inUse := imagesInUse world2
            let rmiCalls := potential.filter (fun img => img ∉ inUse)
            { printedNothing := false, prompted := true, cancelled := false,
              stopCalls := stopCalls, rmCalls := rmCalls, wtRmCalls := wtCalls,
              collected := potential, remaining := world2, rmiCalls := rmiCalls,
              printedImageRemovals := rmiCalls.filter (fun img => inp.rmiOk img),
              errors := errs1 ++ errs2 ++ errs3, world := world2 }

theorem mem_collectImages_ne_empty {l : List (String × JPath × String)} {img : String}
    (h : img ∈ collectImages l) : img ≠ "" := by
  unfold collectImages at h
  rw [List.mem_dedup] at h
  simpa using (List.mem_filter.mp h).2

theorem mem_imagesInUse {w : List ContainerRec} {img : String} :
    img ∈ imagesInUse w ↔ (∃ c ∈ w, c.imageId = img) ∧ img ≠ "" := by
  simp [imagesInUse, List.mem_filter, List.mem_map]

/-- C3: prune is a no-op on a clean state.  When the computed stopped,
orphan and stale sets are all empty, the run prints the
nothing-to-prune report, never prompts, issues no stop, no container
removal, no worktree removal and no image removal, and leaves the
container table unchanged. -/
theorem run_prune_clean_noop (inp : PruneInput) (git_root : JPath)
    (h1 : find_stopped_containers_for_project git_root inp.world = [])
    (h2 : find_orphan_containers inp.onDisk git_root inp.world = [])
    (h3 : find_stale_worktrees inp.onDisk git_root inp.worktrees = []) :
    (run_prune inp git_root).printedNothing = true ∧
    (run_prune inp git_root).prompted = false ∧
    (run_prune inp git_root).stopCalls = [] ∧
    (run_prune inp git_root).rmCalls = [] ∧
    (run_prune inp git_root).wtRmCalls = [] ∧
    (run_prune inp git_root).rmiCalls = [] ∧
    (run_prune inp git_root).world = inp.world := by
  have hr : run_prune inp git_root
      = { printedNothing := true, prompted := false, cancelled := false,
          stopCalls := [], rmCalls := [], wtRmCalls := [], collected := [],
          remaining := [], rmiCalls := [], printedImageRemovals := [],
          errors := [], world := inp.world } := by
    unfold run_prune
    rw [h1, h2, h3]
    simp
  rw [hr]
  exact ⟨rfl, rfl, rfl, rfl, rfl, rfl, rfl⟩

/-- Closed instance of the C3 theorem: a project with no containers and
no worktrees. -/
theorem run_prune_clean_noop_witness :
    (run_prune ⟨[], fun _ => true, [], none, fun _ => true, fun _ => true,
        fun _ => true, fun _ => true⟩ ["home", "app"]).printedNothing = true ∧
    (run_prune ⟨[], fun _ => true, [], none, fun _ => true, fun _ => true,
        fun _ => true, fun _ => true⟩ ["home", "app"]).prompted = false ∧
    (run_prune ⟨[], fun _ => true, [], none, fun _ => true, fun _ => true,
        fun _ => true, fun _ => true⟩ ["home", "app"]).stopCalls = [] ∧
    (run_prune ⟨[], fun _ => true, [], none, fun _ => true, fun _ => true,
        fun _ => true, fun _ => true⟩ ["home", "app"]).rmCalls = [] ∧
    (run_prune ⟨[], fun _ => true, [], none, fun _ => true, fun _ => true,
        fun _ => true, fun _ => true⟩ ["home", "app"]).wtRmCalls = [] ∧
    (run_prune ⟨[], fun _ => true, [], none, fun _ => true, fun _ => true,
        fun _ => true, fun _ => true⟩ ["home", "app"]).rmiCalls = [] ∧
    (run_prune ⟨[], fun _ => true, [], none, fun _ => true, fun _ => true,
        fun _ => true, fun _ => true⟩ ["home", "app"]).world = [] :=
  run_prune_clean_noop
    ⟨[], fun _ => true, [], none, fun _ => true, fun _ => true,
      fun _ => true, fun _ => true⟩ ["home", "app"] rfl rfl rfl

/-- C2: image garbage collection after a confirmed prune.  An rmi call
is issued for an image ID exactly when it was collected in the initial
pass from the stopped-union-orphan sets and, in the table re-queried
after the removal phase, no remaining container references it; and the
stderr failure reports of the run do not depend on the image-removal
exit statuses, so rmi failures are ignored rather than reported. -/
theorem run_prune_image_gc (inp : PruneInput) (git_root : JPath) (r img : String)
    (hresp : inp.response = some r) (hy : strLower r = "y") :
    (img ∈ (run_prune inp git_root).rmiCalls ↔
      img ∈ (run_prune inp git_root).collected ∧
        ∀ c ∈ (run_prune inp git_root).remaining, c.imageId ≠ img) ∧
    (∀ g : String → Bool,
      (run_prune { inp with rmiOk := g } git_root).errors
        = (run_prune inp git_root).errors) := by
  obtain ⟨world, onDisk, wts, resp, stopOk, rmOk, wtOk, rmiOk⟩ := inp
  simp only at hresp
  subst hresp
  have hny : ¬(strLower r ≠ "y") := by simp [hy]
  constructor
  · simp only [run_prune]
    by_cases hempty : ((find_stopped_containers_for_project git_root world).isEmpty &&
        (find_orphan_containers onDisk git_root world).isEmpty &&
        (find_stale_worktrees onDisk git_root wts).isEmpty) = true
    · rw [if_pos hempty]
      simp
    · rw [if_neg hempty, if_neg hny]
      by_cases hpot : (collectImages (find_stopped_containers_for_project git_root world
          ++ find_orphan_containers onDisk git_root world)).isEmpty = true
      · rw [if_pos hpot]
        have hnil : collectImages (find_stopped_containers_for_project git_root world
            ++ find_orphan_containers onDisk git_root world) = [] := by
          simpa using hpot
        simp [hnil]
      · rw [if_neg hpot]
        simp only [List.mem_filter, decide_eq_true_eq]
        constructor
        · rintro ⟨hin, hnot⟩
          refine ⟨hin, ?_⟩
          intro c hc heq
          exact hnot (mem_imagesInUse.mpr ⟨⟨c, hc, heq⟩, mem_collectImages_ne_empty hin⟩)
        · rintro ⟨hin, hall⟩
          refine ⟨hin, ?_⟩
          intro hmem
          obtain ⟨⟨c, hc, heq⟩, _⟩ := mem_imagesInUse.mp hmem
          exact hall c hc heq
  · intro g
    simp only [run_prune]
    by_cases hempty : ((find_stopped_containers_for_project git_root world).isEmpty &&
        (find_orphan_containers onDisk git_root world).isEmpty &&
        (find_stale_worktrees onDisk git_root wts).isEmpty) = true
    · rw [if_pos hempty, if_pos hempty]
    · rw [if_neg hempty, if_neg hempty, if_neg hny, if_neg hny]
      by_cases hpot : (collectImages (find_stopped_containers_for_project git_root world
          ++ find_orphan_containers onDisk git_root world)).isEmpty = true
      · rw [if_pos hpot, if_pos hpot]
      · rw [if_neg hpot, if_neg hpot]

/-- Closed instance of the C2 theorem: one stopped project container
holding image img1, one unrelated running container holding img2; after
the confirmed prune, rmi is issued for img1 because no remaining
container references it. -/
theorem run_prune_image_gc_witness :
    "img1" ∈ (run_prune
        ⟨[⟨"app-old", ["h", "app"], "exited", "img1"⟩,
          ⟨"other", ["h", "other"], "running", "img2"⟩],
          fun _ => true, [], some "y", fun _ => true, fun _ => true,
          fun _ => true, fun _ => true⟩ ["h", "app"]).rmiCalls :=
  (run_prune_image_gc
      ⟨[⟨"app-old", ["h", "app"], "exited", "img1"⟩,
        ⟨"other", ["h", "other"], "running", "img2"⟩],
        fun _ => true, [], some "y", fun _ => true, fun _ => true,
        fun _ => true, fun _ => true⟩ ["h", "app"] "y" "img1"
      rfl (by decide)).1.mpr ⟨by decide, by decide⟩

end Jolo
